import Mathlib

/-!
Shallow embedding of `src/BTC_DipAnalysis.py`, the dip-trading simulator
`analyze_dips_and_trade`.  Python floats are modelled by real numbers and
`math.log2` by `Real.logb 2`; the `datetime` timestamp is modelled by an
abstract natural number.  Besides the two output lists `purchases` and
`sales` kept by the source, the simulation state carries a ghost field
`events` recording the combined emission order of the two `append` calls,
which is what the temporal claims of the specification quantify over.
-/

namespace BTCDip

noncomputable section

/-- One row of the price CSV (`BTCData` in the source).  Field for field as
in the Python dataclass; the `datetime` value is an abstract timestamp. -/
structure BTCData where
  unix_time : ℕ
  date : ℕ
  symbol : String
  open_price : ℝ
  high : ℝ
  low : ℝ
  close : ℝ
  volume_btc : ℝ
  volume_usdt : ℝ
  buy_taker_amount : ℝ
  buy_taker_quantity : ℝ
  trade_count : ℕ
  weighted_average : ℝ

/-- The dict appended to `purchases` at source line 91. -/
structure Purchase where
  date : ℕ
  price : ℝ
  all_time_high : ℝ
  btc_purchased : ℝ
  dollars_spent : ℝ
  total_btc_after_purchase : ℝ

/-- The dict appended to `sales` at source line 72. -/
structure Sale where
  date : ℕ
  price : ℝ
  all_time_high : ℝ
  btc_sold : ℝ
  dollars_received : ℝ
  btc_remaining : ℝ

/-- A single emitted trade event: the two dict shapes, tagged. -/
inductive TradeEvent where
  | purchase (p : Purchase)
  | sale (s : Sale)

/-- The `all_time_high` value recorded on an event. -/
def TradeEvent.ath : TradeEvent → ℝ
  | .purchase p => p.all_time_high
  | .sale s => s.all_time_high

/-- Whether an event is a Purchase. -/
def TradeEvent.isPurchase : TradeEvent → Bool
  | .purchase _ => true
  | .sale _ => false

/-- Whether an event is a Sale. -/
def TradeEvent.isSale : TradeEvent → Bool
  | .purchase _ => false
  | .sale _ => true

/-- The four strategy parameters of `analyze_dips_and_trade`. -/
structure Params where
  dip_fraction : ℝ
  profit_fraction : ℝ
  dollar_amount : ℝ
  sell_fraction : ℝ

/-- The loop state of `analyze_dips_and_trade` (source lines 52-58), plus
the ghost trace `events` of all emitted events in emission order. -/
structure SimState where
  purchases : List Purchase
  sales : List Sale
  all_time_high : ℝ
  current_btc_holdings : ℝ
  sell_target : ℝ
  allow_purchase : Bool
  ready_to_sell : Bool
  events : List TradeEvent

/-- The state before the first bar (source lines 52-58). -/
def initState : SimState :=
  { purchases := []
    sales := []
    all_time_high := 0
    current_btc_holdings := 0
    sell_target := 0
    allow_purchase := false
    ready_to_sell := false
    events := [] }

/-- Source lines 62-64: update the all-time high and re-arm buying on a new
high. -/
def updateATH (st : SimState) (row : BTCData) : SimState :=
  if st.all_time_high < row.high then
    { st with all_time_high := row.high, allow_purchase := true }
  else st

/-- Source lines 67-82: the sell check. -/
def sellStep (P : Params) (st : SimState) (row : BTCData) : SimState :=
  if st.ready_to_sell = true ∧ 0 < st.current_btc_holdings then
    if st.sell_target ≤ row.high then
      let btc_to_sell := st.current_btc_holdings * P.sell_fraction
      let se : Sale :=
        { date := row.date
          price := row.high
          all_time_high := st.all_time_high
          btc_sold := btc_to_sell
          dollars_received := btc_to_sell * row.high
          btc_remaining := st.current_btc_holdings - btc_to_sell }
      { st with
        sales := st.sales ++ [se]
        events := st.events ++ [TradeEvent.sale se]
        current_btc_holdings := st.current_btc_holdings - btc_to_sell
        ready_to_sell := false
        allow_purchase := true }
    else st
  else st

/-- Source lines 85-102: the buy check.  Note that the `dollars_spent`
field of the emitted dict is `dollar_amount`, while the amount used to size
the position is `dollar_amount * log2(len(sales) + 2)`. -/
def buyStep (P : Params) (st : SimState) (row : BTCData) : SimState :=
  let dip_target := st.all_time_high * P.dip_fraction
  if st.allow_purchase = true ∧ row.low ≤ dip_target then
    let purchase_amount := P.dollar_amount * Real.logb 2 ((st.sales.length : ℝ) + 2)
    let btc_amount := purchase_amount / row.low
    let pe : Purchase :=
      { date := row.date
        price := row.low
        all_time_high := st.all_time_high
        btc_purchased := btc_amount
        dollars_spent := P.dollar_amount
        total_btc_after_purchase := st.current_btc_holdings + btc_amount }
    { st with
      purchases := st.purchases ++ [pe]
      events := st.events ++ [TradeEvent.purchase pe]
      current_btc_holdings := st.current_btc_holdings + btc_amount
      allow_purchase := false
      ready_to_sell := true
      sell_target := st.all_time_high * P.profit_fraction }
  else st

/-- One iteration of the loop at source line 60: ATH update, then sell
check, then buy check. -/
def step (P : Params) (st : SimState) (row : BTCData) : SimState :=
  buyStep P (sellStep P (updateATH st row) row) row

/-- The loop state after the whole bar sequence. -/
def runState (data : List BTCData) (P : Params) : SimState :=
  data.foldl (step P) initState

/-- The combined emitted-event sequence of a run, in emission order. -/
def trace (data : List BTCData) (P : Params) : List TradeEvent :=
  (runState data P).events

/-- `analyze_dips_and_trade` (source lines 43-104): validate the three
checked parameters, then fold over the bars; a `ValueError` is modelled as
`Except.error` carrying the message. -/
def analyze_dips_and_trade (data : List BTCData)
    (dip_fraction profit_fraction dollar_amount sell_fraction : ℝ) :
    Except String (List Purchase × List Sale) :=
  if ¬(0 < dip_fraction ∧ dip_fraction < 1) then
    .error "Dip fraction must be between 0 and 1"
  else if profit_fraction ≤ 1 then
    .error "Profit fraction must be greater than 1"
  else if ¬(0 < sell_fraction ∧ sell_fraction ≤ 1) then
    .error "Sell fraction must be between 0 and 1"
  else
    let fin := runState data
      { dip_fraction := dip_fraction
        profit_fraction := profit_fraction
        dollar_amount := dollar_amount
        sell_fraction := sell_fraction }
    .ok (fin.purchases, fin.sales)

/-- Projection of an event to its Purchase payload, if any. -/
def TradeEvent.purchaseOf : TradeEvent → Option Purchase
  | .purchase p => some p
  | .sale _ => none

/-- Projection of an event to its Sale payload, if any. -/
def TradeEvent.saleOf : TradeEvent → Option Sale
  | .purchase _ => none
  | .sale s => some s

/-- No-duplicate-trigger property of an event sequence: two purchases with
no purchase strictly between them are separated by a sale, or the second
one was triggered at a strictly higher recorded all-time-high. -/
def NoDupTrigger (l : List TradeEvent) : Prop :=
  ∀ (i j : ℕ) (p1 p2 : Purchase), i < j → l[i]? = some (TradeEvent.purchase p1) →
    l[j]? = some (TradeEvent.purchase p2) →
    (∀ (k : ℕ) (e : TradeEvent), i < k → k < j → l[k]? = some e → e.isPurchase = false) →
    (∃ (k : ℕ) (sev : Sale), i < k ∧ k < j ∧ l[k]? = some (TradeEvent.sale sev)) ∨
      p1.all_time_high < p2.all_time_high

/-- Every sale in the sequence is preceded by some purchase. -/
def SalePrior (l : List TradeEvent) : Prop :=
  ∀ (j : ℕ) (sev : Sale), l[j]? = some (TradeEvent.sale sev) →
    ∃ (i : ℕ) (pev : Purchase), i < j ∧ l[i]? = some (TradeEvent.purchase pev)

/-- A bar with all the descriptive fields fixed, used for concrete runs. -/
def mkBar (date : ℕ) (high low : ℝ) : BTCData :=
  { unix_time := 0
    date := date
    symbol := "BTCUSDT"
    open_price := high
    high := high
    low := low
    close := high
    volume_btc := 0
    volume_usdt := 0
    buy_taker_amount := 0
    buy_taker_quantity := 0
    trade_count := 0
    weighted_average := 0 }

/-! ### Characterisations of the three per-bar phases -/

theorem updateATH_lt {st : SimState} {row : BTCData} (h : st.all_time_high < row.high) :
    updateATH st row = { st with all_time_high := row.high, allow_purchase := true } := by
  rw [updateATH, if_pos h]

theorem updateATH_not_lt {st : SimState} {row : BTCData} (h : ¬st.all_time_high < row.high) :
    updateATH st row = st := by
  rw [updateATH, if_neg h]

/-- The Sale dict that a firing sell check emits from state `st`. -/
def saleEvent (P : Params) (st : SimState) (row : BTCData) : Sale :=
  { date := row.date
    price := row.high
    all_time_high := st.all_time_high
    btc_sold := st.current_btc_holdings * P.sell_fraction
    dollars_received := st.current_btc_holdings * P.sell_fraction * row.high
    btc_remaining := st.current_btc_holdings - st.current_btc_holdings * P.sell_fraction }

/-- The Purchase dict that a firing buy check emits from state `st`. -/
def buyEvent (P : Params) (st : SimState) (row : BTCData) : Purchase :=
  { date := row.date
    price := row.low
    all_time_high := st.all_time_high
    btc_purchased := P.dollar_amount * Real.logb 2 ((st.sales.length : ℝ) + 2) / row.low
    dollars_spent := P.dollar_amount
    total_btc_after_purchase :=
      st.current_btc_holdings +
        P.dollar_amount * Real.logb 2 ((st.sales.length : ℝ) + 2) / row.low }

theorem sellStep_fire {P : Params} {st : SimState} {row : BTCData}
    (h1 : st.ready_to_sell = true) (h2 : 0 < st.current_btc_holdings)
    (h3 : st.sell_target ≤ row.high) :
    sellStep P st row =
      { st with
        sales := st.sales ++ [saleEvent P st row]
        events := st.events ++ [TradeEvent.sale (saleEvent P st row)]
        current_btc_holdings :=
          st.current_btc_holdings - st.current_btc_holdings * P.sell_fraction
        ready_to_sell := false
        allow_purchase := true } := by
  rw [sellStep, if_pos ⟨h1, h2⟩, if_pos h3]
  rfl

theorem sellStep_skip_cond {P : Params} {st : SimState} {row : BTCData}
    (h : ¬(st.ready_to_sell = true ∧ 0 < st.current_btc_holdings)) :
    sellStep P st row = st := by
  rw [sellStep, if_neg h]

theorem sellStep_skip_price {P : Params} {st : SimState} {row : BTCData}
    (h : ¬st.sell_target ≤ row.high) :
    sellStep P st row = st := by
  by_cases hc : st.ready_to_sell = true ∧ 0 < st.current_btc_holdings
  · rw [sellStep, if_pos hc, if_neg h]
  · exact sellStep_skip_cond hc

theorem buyStep_fire {P : Params} {st : SimState} {row : BTCData}
    (h : st.allow_purchase = true ∧ row.low ≤ st.all_time_high * P.dip_fraction) :
    buyStep P st row =
      { st with
        purchases := st.purchases ++ [buyEvent P st row]
        events := st.events ++ [TradeEvent.purchase (buyEvent P st row)]
        current_btc_holdings :=
          st.current_btc_holdings +
            P.dollar_amount * Real.logb 2 ((st.sales.length : ℝ) + 2) / row.low
        allow_purchase := false
        ready_to_sell := true
        sell_target := st.all_time_high * P.profit_fraction } := by
  rw [buyStep]
  rw [if_pos h]
  rfl

theorem buyStep_skip {P : Params} {st : SimState} {row : BTCData}
    (h : ¬(st.allow_purchase = true ∧ row.low ≤ st.all_time_high * P.dip_fraction)) :
    buyStep P st row = st := by
  rw [buyStep]
  exact if_neg h

/-! ### List helpers -/

theorem mem_of_getElem?_some {α : Type} {l : List α} {i : ℕ} {a : α}
    (h : l[i]? = some a) : a ∈ l := by
  obtain ⟨hi, rfl⟩ := List.getElem?_eq_some.mp h
  exact List.getElem_mem hi

theorem exists_getElem?_of_mem {α : Type} {l : List α} {a : α} (h : a ∈ l) :
    ∃ i : ℕ, l[i]? = some a := by
  obtain ⟨⟨i, hi⟩, hv⟩ := List.get_of_mem h
  exact ⟨i, by rw [List.getElem?_eq_getElem hi, ← hv]; rfl⟩

theorem NoDupTrigger_append {l : List TradeEvent} (h : NoDupTrigger l) (ev : TradeEvent)
    (hlast : ∀ p1 p2, ev = TradeEvent.purchase p2 →
      l.getLast? = some (TradeEvent.purchase p1) → p1.all_time_high < p2.all_time_high) :
    NoDupTrigger (l ++ [ev]) := by
  intro i j p1 p2 hij h1 h2 hmid
  have hjb : j < l.length + 1 := by
    have := (List.getElem?_eq_some.mp h2).1
    simpa using this
  rcases Nat.lt_succ_iff_lt_or_eq.mp hjb with hjl | hjeq
  · have hi : i < l.length := lt_trans hij hjl
    rw [List.getElem?_append_left hi] at h1
    rw [List.getElem?_append_left hjl] at h2
    have hmid2 : ∀ (k : ℕ) (e : TradeEvent), i < k → k < j → l[k]? = some e →
        e.isPurchase = false := by
      intro k e hik hkj hk
      exact hmid k e hik hkj (by rw [List.getElem?_append_left (lt_trans hkj hjl)]; exact hk)
    rcases h i j p1 p2 hij h1 h2 hmid2 with ⟨k, sev, hk1, hk2, hk3⟩ | hlt
    · exact Or.inl ⟨k, sev, hk1, hk2,
        by rw [List.getElem?_append_left (lt_trans hk2 hjl)]; exact hk3⟩
    · exact Or.inr hlt
  · subst hjeq
    rw [List.getElem?_concat_length] at h2
    have hev : ev = TradeEvent.purchase p2 := Option.some.inj h2
    have hi : i < l.length := hij
    rw [List.getElem?_append_left hi] at h1
    rcases Nat.lt_or_ge (i + 1) l.length with hlt | hge
    · obtain ⟨e, he⟩ : ∃ e, l[i + 1]? = some e := ⟨_, List.getElem?_eq_getElem hlt⟩
      cases e with
      | sale sev =>
        exact Or.inl ⟨i + 1, sev, Nat.lt_succ_self i, hlt,
          by rw [List.getElem?_append_left hlt]; exact he⟩
      | purchase q =>
        have := hmid (i + 1) (TradeEvent.purchase q) (Nat.lt_succ_self i) hlt
          (by rw [List.getElem?_append_left hlt]; exact he)
        simp [TradeEvent.isPurchase] at this
    · refine Or.inr ?_
      have hlast2 : l.getLast? = some (TradeEvent.purchase p1) := by
        rw [List.getLast?_eq_getElem?]
        have hidx : l.length - 1 = i := by omega
        rw [hidx]
        exact h1
      exact hlast p1 p2 hev hlast2

theorem SalePrior_append {l : List TradeEvent} (h : SalePrior l) (ev : TradeEvent)
    (hp : ∀ sev, ev = TradeEvent.sale sev → ∃ pev, TradeEvent.purchase pev ∈ l) :
    SalePrior (l ++ [ev]) := by
  intro j sev hj
  have hjb : j < l.length + 1 := by
    have := (List.getElem?_eq_some.mp hj).1
    simpa using this
  rcases Nat.lt_succ_iff_lt_or_eq.mp hjb with hjl | hjeq
  · rw [List.getElem?_append_left hjl] at hj
    obtain ⟨i, pev, hij, hi⟩ := h j sev hj
    exact ⟨i, pev, hij, by rw [List.getElem?_append_left (lt_trans hij hjl)]; exact hi⟩
  · subst hjeq
    rw [List.getElem?_concat_length] at hj
    obtain ⟨pev, hmem⟩ := hp sev (Option.some.inj hj)
    obtain ⟨i, hi⟩ := exists_getElem?_of_mem hmem
    have hil : i < l.length := (List.getElem?_eq_some.mp hi).1
    exact ⟨i, pev, hil, by rw [List.getElem?_append_left hil]; exact hi⟩

/-! ### The run invariant -/

/-- The inductive invariant of the per-bar loop, over the loop state and
the ghost trace. -/
structure Inv (st : SimState) : Prop where
  mono : ∀ e ∈ st.events, e.ath ≤ st.all_time_high
  sorted : st.events.Pairwise (fun a b => a.ath ≤ b.ath)
  nodup : NoDupTrigger st.events
  armed : st.allow_purchase = true → ∀ p, st.events.getLast? = some (TradeEvent.purchase p) →
    p.all_time_high < st.all_time_high
  rtsPurchase : st.ready_to_sell = true → ∃ pev, TradeEvent.purchase pev ∈ st.events
  salePrior : SalePrior st.events
  pcoh : st.purchases = st.events.filterMap TradeEvent.purchaseOf
  scoh : st.sales = st.events.filterMap TradeEvent.saleOf

theorem inv_initState : Inv initState := by
  constructor <;> simp [initState, NoDupTrigger, SalePrior]

theorem inv_updateATH {st : SimState} {row : BTCData} (h : Inv st) :
    Inv (updateATH st row) := by
  by_cases hlt : st.all_time_high < row.high
  · rw [updateATH_lt hlt]
    refine ⟨?_, h.sorted, h.nodup, ?_, h.rtsPurchase, h.salePrior, h.pcoh, h.scoh⟩
    · intro e he
      exact le_trans (h.mono e he) (le_of_lt hlt)
    · intro _ p hp
      have hp2 : st.events[st.events.length - 1]? = some (TradeEvent.purchase p) := by
        rw [← List.getLast?_eq_getElem?]
        exact hp
      exact lt_of_le_of_lt (h.mono _ (mem_of_getElem?_some hp2)) hlt
  · rw [updateATH_not_lt hlt]
    exact h

theorem inv_sellStep {P : Params} {st : SimState} {row : BTCData} (h : Inv st) :
    Inv (sellStep P st row) := by
  by_cases hc : st.ready_to_sell = true ∧ 0 < st.current_btc_holdings
  · by_cases ht : st.sell_target ≤ row.high
    · rw [sellStep_fire hc.1 hc.2 ht]
      refine ⟨?_, ?_, ?_, ?_, ?_, ?_, ?_, ?_⟩
      · intro e he
        rcases List.mem_append.mp he with h1 | h2
        · exact h.mono e h1
        · simp only [List.mem_singleton] at h2
          subst h2
          exact le_refl _
      · rw [List.pairwise_append]
        refine ⟨h.sorted, List.pairwise_singleton _ _, ?_⟩
        intro a ha b hb
        simp only [List.mem_singleton] at hb
        subst hb
        exact h.mono a ha
      · refine NoDupTrigger_append h.nodup _ ?_
        intro p1 p2 hev
        exact absurd hev (by simp)
      · intro _ p hp
        rw [List.getLast?_concat] at hp
        exact absurd hp (by simp)
      · intro hrts
        exact absurd hrts (by simp)
      · refine SalePrior_append h.salePrior _ ?_
        intro sev _
        exact h.rtsPurchase hc.1
      · simp only [List.filterMap_append]
        simpa [TradeEvent.purchaseOf] using h.pcoh
      · simp only [List.filterMap_append]
        simp [TradeEvent.saleOf, h.scoh]
    · rw [sellStep_skip_price ht]
      exact h
  · rw [sellStep_skip_cond hc]
    exact h

theorem inv_buyStep {P : Params} {st : SimState} {row : BTCData} (h : Inv st) :
    Inv (buyStep P st row) := by
  by_cases hb : st.allow_purchase = true ∧ row.low ≤ st.all_time_high * P.dip_fraction
  · rw [buyStep_fire hb]
    refine ⟨?_, ?_, ?_, ?_, ?_, ?_, ?_, ?_⟩
    · intro e he
      rcases List.mem_append.mp he with h1 | h2
      · exact h.mono e h1
      · simp only [List.mem_singleton] at h2
        subst h2
        exact le_refl _
    · rw [List.pairwise_append]
      refine ⟨h.sorted, List.pairwise_singleton _ _, ?_⟩
      intro a ha b hb2
      simp only [List.mem_singleton] at hb2
      subst hb2
      exact h.mono a ha
    · refine NoDupTrigger_append h.nodup _ ?_
      intro p1 p2 hev hlast
      have hp2 : p2.all_time_high = st.all_time_high := by
        cases hev
        rfl
      rw [hp2]
      exact h.armed hb.1 p1 hlast
    · intro hfalse _ _
      exact absurd hfalse (by simp)
    · intro _
      exact ⟨_, List.mem_append_right _ (List.mem_singleton_self _)⟩
    · refine SalePrior_append h.salePrior _ ?_
      intro sev hev
      exact absurd hev (by simp)
    · simp only [List.filterMap_append]
      simp [TradeEvent.purchaseOf, h.pcoh]
    · simp only [List.filterMap_append]
      simpa [TradeEvent.saleOf] using h.scoh
  · rw [buyStep_skip hb]
    exact h

theorem inv_step {P : Params} {st : SimState} {row : BTCData} (h : Inv st) :
    Inv (step P st row) :=
  inv_buyStep (inv_sellStep (inv_updateATH h))

theorem inv_foldl {P : Params} (data : List BTCData) :
    ∀ st : SimState, Inv st → Inv (data.foldl (step P) st) := by
  induction data with
  | nil => intro st h; exact h
  | cons row rest ih => intro st h; exact ih _ (inv_step h)

theorem inv_runState (data : List BTCData) (P : Params) : Inv (runState data P) :=
  inv_foldl data initState inv_initState

/-! ### Fields untouched by each phase -/

theorem updateATH_events (st : SimState) (row : BTCData) :
    (updateATH st row).events = st.events := by
  rw [updateATH]; split <;> rfl

theorem updateATH_purchases (st : SimState) (row : BTCData) :
    (updateATH st row).purchases = st.purchases := by
  rw [updateATH]; split <;> rfl

theorem updateATH_sales (st : SimState) (row : BTCData) :
    (updateATH st row).sales = st.sales := by
  rw [updateATH]; split <;> rfl

theorem updateATH_holdings (st : SimState) (row : BTCData) :
    (updateATH st row).current_btc_holdings = st.current_btc_holdings := by
  rw [updateATH]; split <;> rfl

theorem updateATH_sell_target (st : SimState) (row : BTCData) :
    (updateATH st row).sell_target = st.sell_target := by
  rw [updateATH]; split <;> rfl

theorem updateATH_ready_to_sell (st : SimState) (row : BTCData) :
    (updateATH st row).ready_to_sell = st.ready_to_sell := by
  rw [updateATH]; split <;> rfl

theorem sellStep_purchases (P : Params) (st : SimState) (row : BTCData) :
    (sellStep P st row).purchases = st.purchases := by
  rw [sellStep]
  split
  · split <;> rfl
  · rfl

theorem sellStep_ath (P : Params) (st : SimState) (row : BTCData) :
    (sellStep P st row).all_time_high = st.all_time_high := by
  rw [sellStep]
  split
  · split <;> rfl
  · rfl

theorem sellStep_sell_target (P : Params) (st : SimState) (row : BTCData) :
    (sellStep P st row).sell_target = st.sell_target := by
  rw [sellStep]
  split
  · split <;> rfl
  · rfl

theorem buyStep_sales (P : Params) (st : SimState) (row : BTCData) :
    (buyStep P st row).sales = st.sales := by
  simp only [buyStep]
  split <;> rfl

theorem buyStep_ath (P : Params) (st : SimState) (row : BTCData) :
    (buyStep P st row).all_time_high = st.all_time_high := by
  simp only [buyStep]
  split <;> rfl

/-! ### A concrete reference run

Parameters `d = 1/2`, `p = 2`, `A = 1000`, `s = 1/2` over four bars.  The
run purchases at bar 2 (low 50 ≤ ATH 100 · 1/2), sells at bar 3 (high
200 ≥ target 200), and purchases again at bar 4 (low 100 ≤ ATH 200 · 1/2)
after one prior sale, so the second purchase is sized by `log2(1 + 2)`. -/

def P1 : Params :=
  { dip_fraction := 1 / 2
    profit_fraction := 2
    dollar_amount := 1000
    sell_fraction := 1 / 2 }

def runABars : List BTCData :=
  [mkBar 1 100 100, mkBar 2 100 50, mkBar 3 200 200, mkBar 4 200 100]

def pe1 : Purchase :=
  { date := 2
    price := 50
    all_time_high := 100
    btc_purchased := 20
    dollars_spent := 1000
    total_btc_after_purchase := 20 }

def se1 : Sale :=
  { date := 3
    price := 200
    all_time_high := 200
    btc_sold := 10
    dollars_received := 2000
    btc_remaining := 10 }

def pe2 : Purchase :=
  { date := 4
    price := 100
    all_time_high := 200
    btc_purchased := 10 * Real.logb 2 3
    dollars_spent := 1000
    total_btc_after_purchase := 10 + 10 * Real.logb 2 3 }

theorem runA_purchases : (runState runABars P1).purchases = [pe1, pe2] := by
  norm_num [runState, runABars, P1, mkBar, List.foldl, step, updateATH, sellStep, buyStep,
    initState, Real.logb_self_eq_one, pe1, pe2]
  ring

theorem runA_sales : (runState runABars P1).sales = [se1] := by
  norm_num [runState, runABars, P1, mkBar, List.foldl, step, updateATH, sellStep, buyStep,
    initState, Real.logb_self_eq_one, se1]

theorem runA_trace :
    trace runABars P1 =
      [TradeEvent.purchase pe1, TradeEvent.sale se1, TradeEvent.purchase pe2] := by
  norm_num [trace, runState, runABars, P1, mkBar, List.foldl, step, updateATH, sellStep,
    buyStep, initState, Real.logb_self_eq_one, pe1, se1, pe2]
  ring

/-- A mid-run state used to exercise the same-bar sell-then-buy path:
armed to sell 1 BTC at target 150 under ATH 100. -/
def stC4 : SimState :=
  { purchases := []
    sales := []
    all_time_high := 100
    current_btc_holdings := 1
    sell_target := 150
    allow_purchase := false
    ready_to_sell := true
    events := [] }

def rowC4 : BTCData := mkBar 7 200 40

/-- A mid-run state used to exercise the buy path: armed to buy under
ATH 100 with no holdings. -/
def stC5 : SimState :=
  { purchases := []
    sales := []
    all_time_high := 100
    current_btc_holdings := 0
    sell_target := 0
    allow_purchase := true
    ready_to_sell := false
    events := [] }

def rowC5 : BTCData := mkBar 9 90 50

def peC5 : Purchase :=
  { date := 9
    price := 50
    all_time_high := 100
    btc_purchased := 20
    dollars_spent := 1000
    total_btc_after_purchase := 20 }

/-- A mid-run state used to exercise the sell path: holding 20 BTC, armed
to sell at target 200 under ATH 200. -/
def stC7 : SimState :=
  { purchases := []
    sales := []
    all_time_high := 200
    current_btc_holdings := 20
    sell_target := 200
    allow_purchase := false
    ready_to_sell := true
    events := [] }

def rowC7 : BTCData := mkBar 5 200 150

def seC7 : Sale :=
  { date := 5
    price := 200
    all_time_high := 200
    btc_sold := 10
    dollars_received := 2000
    btc_remaining := 10 }

/-! ### The claims -/

/-- Claim C2: for every parameter set with the dip fraction outside (0,1),
or the profit fraction at most 1, or the sell fraction outside (0,1], the
simulator fails with the corresponding `ValueError` independently of the
bar sequence — the validation runs before any bar is processed, so the
caller receives an error and zero events. -/
theorem invalid_params_error_before_any_bar (d p A s : ℝ)
    (h : ¬(0 < d ∧ d < 1) ∨ p ≤ 1 ∨ ¬(0 < s ∧ s ≤ 1)) :
    ∃ msg : String, ∀ data : List BTCData,
      analyze_dips_and_trade data d p A s = .error msg := by
  by_cases h1 : ¬(0 < d ∧ d < 1)
  · exact ⟨_, fun data => by rw [analyze_dips_and_trade, if_pos h1]⟩
  · by_cases h2 : p ≤ 1
    · exact ⟨_, fun data => by rw [analyze_dips_and_trade, if_neg h1, if_pos h2]⟩
    · have h3 : ¬(0 < s ∧ s ≤ 1) := by tauto
      exact ⟨_, fun data => by rw [analyze_dips_and_trade, if_neg h1, if_neg h2, if_pos h3]⟩

theorem invalid_params_error_witness :
    (¬((0:ℝ) < 2 ∧ (2:ℝ) < 1) ∨ (2:ℝ) ≤ 1 ∨ ¬((0:ℝ) < 1/2 ∧ (1:ℝ)/2 ≤ 1)) ∧
    ∃ msg : String, ∀ data : List BTCData,
      analyze_dips_and_trade data 2 2 1000 (1/2) = .error msg :=
  ⟨Or.inl (by norm_num),
    invalid_params_error_before_any_bar 2 2 1000 (1/2) (Or.inl (by norm_num))⟩

/-- Claim C9: on an empty bar sequence with valid parameters the simulator
returns empty purchase and sale lists and raises no error. -/
theorem empty_bars_empty_outputs (d p A s : ℝ) (hd : 0 < d ∧ d < 1) (hp : 1 < p)
    (hs : 0 < s ∧ s ≤ 1) :
    analyze_dips_and_trade [] d p A s = .ok ([], []) := by
  rw [analyze_dips_and_trade, if_neg (not_not_intro hd), if_neg (not_le.mpr hp),
    if_neg (not_not_intro hs)]
  rfl

theorem empty_bars_empty_outputs_witness :
    ((0:ℝ) < 1/2 ∧ (1:ℝ)/2 < 1) ∧ (1:ℝ) < 2 ∧ ((0:ℝ) < 1/2 ∧ (1:ℝ)/2 ≤ 1) ∧
    analyze_dips_and_trade [] (1/2) 2 1000 (1/2) = .ok ([], []) :=
  ⟨by norm_num, by norm_num, by norm_num,
    empty_bars_empty_outputs (1/2) 2 1000 (1/2) (by norm_num) (by norm_num) (by norm_num)⟩

/-- Claim C6: the `all_time_high` recorded on the emitted events is
non-decreasing across the combined event sequence in emission order (for
any parameters, in particular valid ones). -/
theorem event_ath_nondecreasing (data : List BTCData) (P : Params) :
    (trace data P).Pairwise (fun a b => a.ath ≤ b.ath) :=
  (inv_runState data P).sorted

/-- Claim C3: between two consecutive Purchase events (no purchase
strictly between them in the combined trace) there is an intervening
re-arming event: either a Sale lies strictly between them, or the second
purchase fired at a strictly larger recorded all-time-high — and the
recorded all-time-high grows only when a bar sets a new one, so a second
purchase never fires at the same ATH without such an event. -/
theorem purchase_rearm_between_consecutive_purchases (data : List BTCData) (P : Params)
    (i j : ℕ) (p1 p2 : Purchase) (hij : i < j)
    (h1 : (trace data P)[i]? = some (TradeEvent.purchase p1))
    (h2 : (trace data P)[j]? = some (TradeEvent.purchase p2))
    (hmid : ∀ (k : ℕ) (e : TradeEvent), i < k → k < j → (trace data P)[k]? = some e →
      e.isPurchase = false) :
    (∃ (k : ℕ) (sev : Sale), i < k ∧ k < j ∧
        (trace data P)[k]? = some (TradeEvent.sale sev)) ∨
      p1.all_time_high < p2.all_time_high :=
  (inv_runState data P).nodup i j p1 p2 hij h1 h2 hmid

theorem purchase_rearm_witness :
    (0 < 2 ∧
      (trace runABars P1)[0]? = some (TradeEvent.purchase pe1) ∧
      (trace runABars P1)[2]? = some (TradeEvent.purchase pe2)) ∧
    ((∃ (k : ℕ) (sev : Sale), 0 < k ∧ k < 2 ∧
        (trace runABars P1)[k]? = some (TradeEvent.sale sev)) ∨
      pe1.all_time_high < pe2.all_time_high) := by
  refine ⟨⟨by norm_num, by rw [runA_trace]; rfl, by rw [runA_trace]; rfl⟩, ?_⟩
  refine purchase_rearm_between_consecutive_purchases runABars P1 0 2 pe1 pe2 (by norm_num)
    (by rw [runA_trace]; rfl) (by rw [runA_trace]; rfl) ?_
  intro k e h0k hk2 hk
  have hk1 : k = 1 := by omega
  subst hk1
  rw [runA_trace] at hk
  have he : e = TradeEvent.sale se1 := by
    simpa using hk.symm
  subst he
  rfl

/-- Claim C10: every Sale event in the combined trace is preceded by at
least one Purchase event, so in particular the first emitted event is
never a Sale. -/
theorem sale_preceded_by_purchase (data : List BTCData) (P : Params) (j : ℕ) (sev : Sale)
    (h : (trace data P)[j]? = some (TradeEvent.sale sev)) :
    0 < j ∧ ∃ (i : ℕ) (pev : Purchase), i < j ∧
      (trace data P)[i]? = some (TradeEvent.purchase pev) := by
  obtain ⟨i, pev, hij, hi⟩ := (inv_runState data P).salePrior j sev h
  exact ⟨lt_of_le_of_lt (Nat.zero_le i) hij, i, pev, hij, hi⟩

theorem sale_preceded_by_purchase_witness :
    (trace runABars P1)[1]? = some (TradeEvent.sale se1) ∧
    0 < 1 ∧ ∃ (i : ℕ) (pev : Purchase), i < 1 ∧
      (trace runABars P1)[i]? = some (TradeEvent.purchase pev) :=
  ⟨by rw [runA_trace]; rfl,
    sale_preceded_by_purchase runABars P1 1 se1 (by rw [runA_trace]; rfl)⟩

/-- Claim C4: within one bar the phases run in the order ATH update, sell
check, buy check; so when the sell condition holds after the ATH update
and the buy condition holds on the state the sell leaves behind (a sale
re-arms buying, so only the dip condition is needed), the bar emits its
Sale event strictly before its Purchase event, both stamped with the
bar's timestamp. -/
theorem same_bar_sale_emitted_before_purchase (P : Params) (st : SimState) (row : BTCData)
    (hrts : (updateATH st row).ready_to_sell = true)
    (hhold : 0 < (updateATH st row).current_btc_holdings)
    (htarget : (updateATH st row).sell_target ≤ row.high)
    (hbuy : row.low ≤ (sellStep P (updateATH st row) row).all_time_high * P.dip_fraction) :
    ∃ (se : Sale) (pe : Purchase),
      (step P st row).events = st.events ++ [TradeEvent.sale se, TradeEvent.purchase pe] ∧
      se.date = row.date ∧ pe.date = row.date := by
  have hmid := @sellStep_fire P (updateATH st row) row hrts hhold htarget
  have hb : (sellStep P (updateATH st row) row).allow_purchase = true ∧
      row.low ≤ (sellStep P (updateATH st row) row).all_time_high * P.dip_fraction :=
    ⟨by rw [hmid], hbuy⟩
  refine ⟨saleEvent P (updateATH st row) row,
    buyEvent P (sellStep P (updateATH st row) row) row, ?_, rfl, rfl⟩
  rw [step, buyStep_fire hb, hmid]
  simp only [updateATH_events, List.append_assoc]
  rfl

theorem same_bar_sale_before_purchase_witness :
    ((updateATH stC4 rowC4).ready_to_sell = true ∧
      0 < (updateATH stC4 rowC4).current_btc_holdings ∧
      (updateATH stC4 rowC4).sell_target ≤ rowC4.high ∧
      rowC4.low ≤ (sellStep P1 (updateATH stC4 rowC4) rowC4).all_time_high *
        P1.dip_fraction) ∧
    ∃ (se : Sale) (pe : Purchase),
      (step P1 stC4 rowC4).events =
        stC4.events ++ [TradeEvent.sale se, TradeEvent.purchase pe] ∧
      se.date = rowC4.date ∧ pe.date = rowC4.date := by
  have h1 : (updateATH stC4 rowC4).ready_to_sell = true := by
    norm_num [updateATH, stC4, rowC4, mkBar]
  have h2 : 0 < (updateATH stC4 rowC4).current_btc_holdings := by
    norm_num [updateATH, stC4, rowC4, mkBar]
  have h3 : (updateATH stC4 rowC4).sell_target ≤ rowC4.high := by
    norm_num [updateATH, stC4, rowC4, mkBar]
  have h4 : rowC4.low ≤ (sellStep P1 (updateATH stC4 rowC4) rowC4).all_time_high *
      P1.dip_fraction := by
    norm_num [sellStep_ath, updateATH, stC4, rowC4, mkBar, P1]
  exact ⟨⟨h1, h2, h3, h4⟩,
    same_bar_sale_emitted_before_purchase P1 stC4 rowC4 h1 h2 h3 h4⟩

/-- Claim C5: the sell target is captured at purchase time as the
then-current all-time-high (the one recorded on the purchase) times the
profit fraction, and any bar that emits no purchase — including bars that
only raise the ATH — leaves the armed sell target unchanged. -/
theorem sell_target_captured_at_purchase_time (P : Params) (st : SimState) (row : BTCData) :
    ((step P st row).purchases = st.purchases →
      (step P st row).sell_target = st.sell_target) ∧
    (∀ pe : Purchase, (step P st row).purchases = st.purchases ++ [pe] →
      (step P st row).sell_target = pe.all_time_high * P.profit_fraction) := by
  rw [step]
  have hp2 : (sellStep P (updateATH st row) row).purchases = st.purchases := by
    rw [sellStep_purchases, updateATH_purchases]
  have ht2 : (sellStep P (updateATH st row) row).sell_target = st.sell_target := by
    rw [sellStep_sell_target, updateATH_sell_target]
  by_cases hb : (sellStep P (updateATH st row) row).allow_purchase = true ∧
      row.low ≤ (sellStep P (updateATH st row) row).all_time_high * P.dip_fraction
  · rw [buyStep_fire hb]
    constructor
    · intro h
      exfalso
      have hlen := congrArg List.length h
      simp only [hp2] at hlen
      simp at hlen
    · intro pe hpe
      have hpe2 : (sellStep P (updateATH st row) row).purchases ++
          [buyEvent P (sellStep P (updateATH st row) row) row] = st.purchases ++ [pe] := hpe
      rw [hp2] at hpe2
      have hsingle := List.append_cancel_left hpe2
      have hpe3 : buyEvent P (sellStep P (updateATH st row) row) row = pe := by
        simpa using hsingle
      rw [← hpe3]
      rfl
  · rw [buyStep_skip hb]
    constructor
    · intro _
      exact ht2
    · intro pe hpe
      exfalso
      rw [hp2] at hpe
      have hlen := congrArg List.length hpe
      simp at hlen

theorem sell_target_captured_witness :
    (step P1 stC5 rowC5).purchases = stC5.purchases ++ [peC5] ∧
    (step P1 stC5 rowC5).sell_target = peC5.all_time_high * P1.profit_fraction := by
  have hev : (step P1 stC5 rowC5).purchases = stC5.purchases ++ [peC5] := by
    norm_num [step, updateATH, sellStep, buyStep, stC5, rowC5, mkBar, P1, peC5,
      Real.logb_self_eq_one]
  exact ⟨hev, (sell_target_captured_at_purchase_time P1 stC5 rowC5).2 peC5 hev⟩

/-- Claim C7: a firing sell check sells exactly the sell fraction of the
pre-sale holdings (`btc_sold = holdings * s`, `btc_remaining =
holdings * (1 - s)`), emits exactly that one Sale on the bar, and clears
the ready-to-sell flag, which stays cleared on later bars as long as no
new purchase fires — so a later bar whose high again exceeds the sell
target emits no second Sale without an intervening purchase. -/
theorem sale_scale_out_and_disarm (P : Params) (st : SimState) (row : BTCData) :
    (∀ se : Sale, (step P st row).sales = st.sales ++ [se] →
      se.btc_sold = st.current_btc_holdings * P.sell_fraction ∧
      se.btc_remaining = st.current_btc_holdings * (1 - P.sell_fraction) ∧
      ((step P st row).purchases = st.purchases → (step P st row).ready_to_sell = false)) ∧
    (st.ready_to_sell = false →
      (step P st row).sales = st.sales ∧
      ((step P st row).purchases = st.purchases → (step P st row).ready_to_sell = false)) := by
  rw [step]
  constructor
  · intro se hse
    rw [buyStep_sales] at hse
    by_cases hc : (updateATH st row).ready_to_sell = true ∧
        0 < (updateATH st row).current_btc_holdings
    · by_cases ht : (updateATH st row).sell_target ≤ row.high
      · have hmid := @sellStep_fire P (updateATH st row) row hc.1 hc.2 ht
        rw [hmid] at hse
        have hsales : (updateATH st row).sales ++ [saleEvent P (updateATH st row) row] =
            st.sales ++ [se] := hse
        rw [updateATH_sales] at hsales
        have hsingle : saleEvent P (updateATH st row) row = se := by
          simpa using List.append_cancel_left hsales
        have hsold : se.btc_sold = st.current_btc_holdings * P.sell_fraction := by
          rw [← hsingle, saleEvent, updateATH_holdings]
        have hrem : se.btc_remaining = st.current_btc_holdings * (1 - P.sell_fraction) := by
          rw [← hsingle, saleEvent, updateATH_holdings]
          ring
        refine ⟨hsold, hrem, ?_⟩
        intro hpur
        by_cases hb : (sellStep P (updateATH st row) row).allow_purchase = true ∧
            row.low ≤ (sellStep P (updateATH st row) row).all_time_high * P.dip_fraction
        · rw [buyStep_fire hb] at hpur
          exfalso
          have hpur2 : (sellStep P (updateATH st row) row).purchases ++
              [buyEvent P (sellStep P (updateATH st row) row) row] = st.purchases := hpur
          rw [sellStep_purchases, updateATH_purchases] at hpur2
          have hlen := congrArg List.length hpur2
          simp at hlen
        · rw [buyStep_skip hb, hmid]
      · exfalso
        rw [sellStep_skip_price ht, updateATH_sales] at hse
        have hlen := congrArg List.length hse
        simp at hlen
    · exfalso
      rw [sellStep_skip_cond hc, updateATH_sales] at hse
      have hlen := congrArg List.length hse
      simp at hlen
  · intro hrts
    have hc : ¬((updateATH st row).ready_to_sell = true ∧
        0 < (updateATH st row).current_btc_holdings) := by
      rw [updateATH_ready_to_sell, hrts]
      simp
    rw [sellStep_skip_cond hc]
    constructor
    · rw [buyStep_sales, updateATH_sales]
    · intro hpur
      by_cases hb : (updateATH st row).allow_purchase = true ∧
          row.low ≤ (updateATH st row).all_time_high * P.dip_fraction
      · rw [buyStep_fire hb] at hpur
        exfalso
        have hpur2 : (updateATH st row).purchases ++
            [buyEvent P (updateATH st row) row] = st.purchases := hpur
        rw [updateATH_purchases] at hpur2
        have hlen := congrArg List.length hpur2
        simp at hlen
      · rw [buyStep_skip hb, updateATH_ready_to_sell]
        exact hrts

theorem sale_scale_out_witness :
    (step P1 stC7 rowC7).sales = stC7.sales ++ [seC7] ∧
    seC7.btc_sold = stC7.current_btc_holdings * P1.sell_fraction ∧
    seC7.btc_remaining = stC7.current_btc_holdings * (1 - P1.sell_fraction) := by
  have hs : (step P1 stC7 rowC7).sales = stC7.sales ++ [seC7] := by
    norm_num [step, updateATH, sellStep, buyStep, stC7, rowC7, mkBar, P1, seC7]
  have hrest := (sale_scale_out_and_disarm P1 stC7 rowC7).1 seC7 hs
  exact ⟨hs, hrest.1, hrest.2.1⟩

/-! ### Holdings non-negativity (claim C8) -/

/-- Non-negativity of the holdings quantity and of the holdings-derived
event fields. -/
structure HInv (st : SimState) : Prop where
  hold : 0 ≤ st.current_btc_holdings
  rem : ∀ se ∈ st.sales, 0 ≤ se.btc_remaining
  tot : ∀ pe ∈ st.purchases, 0 ≤ pe.total_btc_after_purchase

theorem hinv_step {P : Params} {st : SimState} {row : BTCData}
    (hA : 0 ≤ P.dollar_amount) (hs : P.sell_fraction ≤ 1) (hlow : 0 < row.low)
    (h : HInv st) : HInv (step P st row) := by
  rw [step]
  have h1 : HInv (updateATH st row) := by
    rw [updateATH]
    split
    · exact ⟨h.hold, h.rem, h.tot⟩
    · exact h
  have h2 : HInv (sellStep P (updateATH st row) row) := by
    by_cases hc : (updateATH st row).ready_to_sell = true ∧
        0 < (updateATH st row).current_btc_holdings
    · by_cases ht : (updateATH st row).sell_target ≤ row.high
      · rw [@sellStep_fire P (updateATH st row) row hc.1 hc.2 ht]
        have key : 0 ≤ (updateATH st row).current_btc_holdings -
            (updateATH st row).current_btc_holdings * P.sell_fraction := by
          have hmul := mul_nonneg h1.hold (sub_nonneg.mpr hs)
          nlinarith [hmul]
        refine ⟨key, ?_, h1.tot⟩
        intro se hse
        rcases List.mem_append.mp hse with hm | hm
        · exact h1.rem se hm
        · simp only [List.mem_singleton] at hm
          subst hm
          simpa [saleEvent] using key
      · rw [sellStep_skip_price ht]
        exact h1
    · rw [sellStep_skip_cond hc]
      exact h1
  by_cases hb : (sellStep P (updateATH st row) row).allow_purchase = true ∧
      row.low ≤ (sellStep P (updateATH st row) row).all_time_high * P.dip_fraction
  · rw [buyStep_fire hb]
    have hamt : 0 ≤ P.dollar_amount *
        Real.logb 2 (((sellStep P (updateATH st row) row).sales.length : ℝ) + 2) /
        row.low := by
      apply div_nonneg _ (le_of_lt hlow)
      apply mul_nonneg hA
      apply Real.logb_nonneg (by norm_num)
      have hn : (0:ℝ) ≤ (((sellStep P (updateATH st row) row).sales.length : ℝ)) :=
        Nat.cast_nonneg _
      linarith
    refine ⟨add_nonneg h2.hold hamt, h2.rem, ?_⟩
    intro pe hpe
    rcases List.mem_append.mp hpe with hm | hm
    · exact h2.tot pe hm
    · simp only [List.mem_singleton] at hm
      subst hm
      simpa [buyEvent] using add_nonneg h2.hold hamt
  · rw [buyStep_skip hb]
    exact h2

theorem hinv_foldl {P : Params} (hA : 0 ≤ P.dollar_amount) (hs : P.sell_fraction ≤ 1) :
    ∀ data : List BTCData, (∀ b ∈ data, 0 < b.low) → ∀ st : SimState, HInv st →
      HInv (data.foldl (step P) st) := by
  intro data
  induction data with
  | nil => intro _ st h; exact h
  | cons row rest ih =>
    intro hlow st h
    exact ih (fun b hb => hlow b (List.mem_cons_of_mem row hb)) _
      (hinv_step hA hs (hlow row (List.mem_cons_self row rest)) h)

/-- Claim C8 (amended): with valid checked parameters, a NON-NEGATIVE
dollar amount (the code never validates the dollar amount, so the
amendment adds `0 ≤ A`), and positive low prices, the holdings quantity
is non-negative after every bar, and so are the `btc_remaining` field of
every Sale and the `total_btc_after_purchase` field of every Purchase. -/
theorem holdings_nonneg_for_nonneg_dollar_amount (data : List BTCData) (P : Params)
    (hd : 0 < P.dip_fraction ∧ P.dip_fraction < 1) (hp : 1 < P.profit_fraction)
    (hs : 0 < P.sell_fraction ∧ P.sell_fraction ≤ 1) (hA : 0 ≤ P.dollar_amount)
    (hlow : ∀ b ∈ data, 0 < b.low) :
    (∀ n : ℕ, 0 ≤ (runState (data.take n) P).current_btc_holdings) ∧
    (∀ se ∈ (runState data P).sales, 0 ≤ se.btc_remaining) ∧
    (∀ pe ∈ (runState data P).purchases, 0 ≤ pe.total_btc_after_purchase) := by
  have hinit : HInv initState := ⟨le_refl 0, by simp [initState], by simp [initState]⟩
  refine ⟨?_, ?_, ?_⟩
  · intro n
    exact (hinv_foldl hA hs.2 (data.take n)
      (fun b hb => hlow b (List.take_subset n data hb)) initState hinit).hold
  · exact (hinv_foldl hA hs.2 data hlow initState hinit).rem
  · exact (hinv_foldl hA hs.2 data hlow initState hinit).tot

theorem holdings_nonneg_witness :
    ((0 < P1.dip_fraction ∧ P1.dip_fraction < 1) ∧ 1 < P1.profit_fraction ∧
      (0 < P1.sell_fraction ∧ P1.sell_fraction ≤ 1) ∧ 0 ≤ P1.dollar_amount ∧
      (∀ b ∈ runABars, 0 < b.low)) ∧
    ((∀ n : ℕ, 0 ≤ (runState (runABars.take n) P1).current_btc_holdings) ∧
      (∀ se ∈ (runState runABars P1).sales, 0 ≤ se.btc_remaining) ∧
      (∀ pe ∈ (runState runABars P1).purchases, 0 ≤ pe.total_btc_after_purchase)) := by
  have hlow : ∀ b ∈ runABars, 0 < b.low := by
    intro b hb
    simp only [runABars] at hb
    fin_cases hb <;> norm_num [mkBar]
  exact ⟨⟨by norm_num [P1], by norm_num [P1], by norm_num [P1], by norm_num [P1], hlow⟩,
    holdings_nonneg_for_nonneg_dollar_amount runABars P1 (by norm_num [P1])
      (by norm_num [P1]) (by norm_num [P1]) (by norm_num [P1]) hlow⟩

/-- Parameters that pass all three validation checks but carry a negative
dollar amount, which the code never validates. -/
def PNeg : Params :=
  { dip_fraction := 1 / 2
    profit_fraction := 2
    dollar_amount := -1000
    sell_fraction := 1 / 2 }

def negBars : List BTCData :=
  [mkBar 1 100 100, mkBar 2 100 50]

/-- Claim C8 as stated is false: the three checked parameters are valid
and all prices are positive, yet the run ends with negative holdings and
emits a purchase whose `total_btc_after_purchase` is negative, because
the unvalidated dollar amount is negative. -/
theorem holdings_negative_with_negative_dollar_amount :
    (0 < PNeg.dip_fraction ∧ PNeg.dip_fraction < 1) ∧
    1 < PNeg.profit_fraction ∧
    (0 < PNeg.sell_fraction ∧ PNeg.sell_fraction ≤ 1) ∧
    (∀ b ∈ negBars, 0 < b.low ∧ 0 < b.high ∧ 0 < b.open_price ∧ 0 < b.close) ∧
    (runState negBars PNeg).current_btc_holdings < 0 ∧
    (runState negBars PNeg).purchases.map Purchase.total_btc_after_purchase = [-20] := by
  refine ⟨by norm_num [PNeg], by norm_num [PNeg], by norm_num [PNeg], ?_, ?_, ?_⟩
  · intro b hb
    simp only [negBars] at hb
    fin_cases hb <;> norm_num [mkBar]
  · norm_num [runState, negBars, PNeg, mkBar, List.foldl, step, updateATH, sellStep,
      buyStep, initState, Real.logb_self_eq_one]
  · norm_num [runState, negBars, PNeg, mkBar, List.foldl, step, updateATH, sellStep,
      buyStep, initState, Real.logb_self_eq_one]

/-- Claim C1 (code-bug evidence): in the reference run the second purchase
comes after exactly one sale.  The dollars actually spent by it — BTC
bought times fill price — equal `A * log2(1 + 2)` as the sizing rule
prescribes, but the `dollars_spent` field recorded on the event is the
plain `A` of source line 96, and the two differ. -/
theorem dollars_spent_field_ignores_log_sizing :
    (runState runABars P1).sales.length = 1 ∧
    (runState runABars P1).purchases[1]? = some pe2 ∧
    pe2.dollars_spent = P1.dollar_amount ∧
    pe2.btc_purchased * pe2.price = P1.dollar_amount * Real.logb 2 (1 + 2) ∧
    P1.dollar_amount * Real.logb 2 (1 + 2) ≠ P1.dollar_amount := by
  refine ⟨by rw [runA_sales]; rfl, by rw [runA_purchases]; rfl, rfl, ?_, ?_⟩
  · show (10 * Real.logb 2 3) * 100 = P1.dollar_amount * Real.logb 2 (1 + 2)
    rw [show ((1:ℝ) + 2) = 3 by norm_num]
    show (10 * Real.logb 2 3) * 100 = 1000 * Real.logb 2 3
    ring
  · intro heq
    have h2 : Real.logb 2 2 = 1 := Real.logb_self_eq_one (by norm_num)
    have h3 : Real.logb 2 2 < Real.logb 2 3 :=
      Real.logb_lt_logb (by norm_num) (by norm_num) (by norm_num)
    rw [show ((1:ℝ) + 2) = 3 by norm_num] at heq
    have heq2 : (1000:ℝ) * Real.logb 2 3 = 1000 := heq
    linarith

end

end BTCDip
